import Mathlib

/-!
Shallow embedding of `pkg/provider/loadBalancer.go` from
kube-vip-cloud-provider: the load-balancer reconciliation coordinator
(`syncLoadBalancer`), the pool resolver (`discoverAddress`), the
`GetLoadBalancer` probe and the deletion path.

Stateful collaborator calls (service list / get / update, configmap
get / create) are modelled by an explicit environment of response
functions, and every collaborator call made by the coordinator is
recorded in an effect trace, so "performs no write" style properties
are statable.  The `ipam` package (a separate package of the same
repository, not part of the provided source) is abstracted as a pair
of allocation functions supplied by the environment.
-/

namespace Provider

/-- One ingress entry of a load-balancer status (`v1.LoadBalancerIngress`). -/
structure LoadBalancerIngress where
  ip : String
  hostname : String
deriving DecidableEq, Repr

/-- `v1.LoadBalancerStatus`: the status block `syncLoadBalancer` returns a
pointer to, never inspected or modified by this file's code. -/
structure LBStatus where
  ingress : List LoadBalancerIngress
deriving DecidableEq, Repr

/-- Association-list lookup, modelling a Go `map[string]string` read with
its `ok` flag: `none` when the key is absent. -/
def lookupAssoc : List (String × String) → String → Option String
  | [], _ => none
  | (k, v) :: rest, key => if k = key then some v else lookupAssoc rest key

/-- Association-list update, modelling Go `m[k] = v`. -/
def setAssoc : List (String × String) → String → String → List (String × String)
  | [], k, v => [(k, v)]
  | (k', v') :: rest, k, v =>
      if k' = k then (k, v) :: rest else (k', v') :: setAssoc rest k v

/-- A `v1.Service` restricted to the fields this code touches.  `labels`
is `Option`-wrapped because a Go label map can be nil, which the code
checks for explicitly before writing. -/
structure Service where
  ns : String
  name : String
  uid : String
  labels : Option (List (String × String))
  specLoadBalancerIP : String
  statusLoadBalancer : LBStatus
deriving DecidableEq, Repr

/-- Label lookup with the Go `ok` flag: `none` when the map is nil or the
key is absent. -/
def lookupLabel (s : Service) (k : String) : Option String :=
  match s.labels with
  | none => none
  | some l => lookupAssoc l k

/-- Plain Go label read `s.Labels[k]`: the empty string when the map is
nil or the key is absent. -/
def getLabel (s : Service) (k : String) : String :=
  (lookupLabel s k).getD ""

/-- The keyed configuration document (`v1.ConfigMap.Data`). -/
structure ConfigMap where
  data : List (String × String)
deriving DecidableEq, Repr

/-- Errors returned by the object store, as far as the code
distinguishes them: `retry.RetryOnConflict` retries exactly on
version-conflict errors. -/
inductive KErr where
  | conflict
  | notFound
  | other (msg : String)
deriving DecidableEq, Repr

/-- Errors out of `discoverAddress`: either the allocation error
returned by the `ipam` package for the selected pool, or the final
"no IP address ranges could be found" error when all four lookup keys
are absent. -/
inductive DiscoverErr where
  | ipamErr (msg : String)
  | notFound
deriving DecidableEq, Repr

/-- The values the local variable `err` of `syncLoadBalancer` can hold:
a store error or a `discoverAddress` error (it is only ever assigned
from the list call, the configmap calls and `discoverAddress`). -/
inductive GoErrCore where
  | kube (e : KErr)
  | discover (e : DiscoverErr)
deriving DecidableEq, Repr

/-- Go `error` values flowing out of the embedded functions: a core
error, or the `fmt.Errorf` wrapper built when the update retry loop
fails — `inner` is the error value the wrapper formats with `%v`. -/
inductive GoErr where
  | core (e : GoErrCore)
  | updateWrap (svcName : String) (inner : Option GoErrCore)
deriving DecidableEq, Repr

/-- The two allocation entry points of the repository's `ipam` package
(`FindAvailableHostFromCidr`, `FindAvailableHostFromRange`), abstracted:
each takes the namespace, the pool text and the existing-address list. -/
structure Ipam where
  findCidr : String → String → List String → Except String String
  findRange : String → String → List String → Except String String

/-- One collaborator call made by the coordinator, recorded in order.
`discoverCall` records the exclusion list handed to `discoverAddress`. -/
inductive Effect where
  | listServices (ns selector : String)
  | getConfigMap (name ns : String)
  | createConfigMap (name ns : String)
  | discoverCall (ns : String) (existing : List String)
  | getService (ns name : String)
  | updateService (svc : Service)
deriving DecidableEq, Repr

/-- The environment of collaborator responses.  `getSvc` and `updateSvc`
take the retry-attempt index so that a run can answer differently on
later attempts (conflict then success). -/
structure Env where
  ipam : Ipam
  cloudConfigMap : String
  list : String → String → Except KErr (List Service)
  getCM : String → String → Except KErr ConfigMap
  createCM : String → String → Except KErr ConfigMap
  getSvc : Nat → String → String → Except KErr Service
  updateSvc : Nat → Service → Except KErr Unit

/-- Result of one `syncLoadBalancer` run: the returned status pointer
(`none` for Go nil), the returned error, and the trace of collaborator
calls made. -/
structure SyncOut where
  status : Option LBStatus
  error : Option GoErr
  trace : List Effect
deriving DecidableEq, Repr

/-- Modelled from the spec: the name of the configuration document
(constant `KubeVipClientConfig`, defined in a file of this repository
outside the provided source); no claim depends on its value. -/
def KubeVipClientConfig : String := "kubevip"

/-- The label selector used to list already-claimed services. -/
def implementationSelector : String := "implementation=kube-vip"

/-- Lift an ipam allocation result into the discover error space: the
Go code returns the address on success and propagates the ipam error
otherwise (`if err != nil { return "", err }`). -/
def ofIpam : Except String String → Except DiscoverErr String
  | Except.ok vip => Except.ok vip
  | Except.error e => Except.error (DiscoverErr.ipamErr e)

/-- `discoverAddress`: resolve the pool for the namespace from the
configuration document (cidr-namespace, cidr-global, range-namespace,
range-global, first hit wins) and run the matching ipam allocator over
it; the configMapName argument feeds only log output in the source. -/
def discoverAddress (ip : Ipam) (cm : ConfigMap) (ns _configMapName : String)
    (existingServiceIPS : List String) : Except DiscoverErr String :=
  let cidrKey := "cidr-" ++ ns
  let cidrHit :=
    match lookupAssoc cm.data cidrKey with
    | some c => some c
    | none => lookupAssoc cm.data "cidr-global"
  match cidrHit with
  | some cidr => ofIpam (ip.findCidr ns cidr existingServiceIPS)
  | none =>
    let rangeKey := "range-" ++ ns
    let rangeHit :=
      match lookupAssoc cm.data rangeKey with
      | some r => some r
      | none => lookupAssoc cm.data "range-global"
    match rangeHit with
    | some ipRange => ofIpam (ip.findRange ns ipRange existingServiceIPS)
    | none => Except.error DiscoverErr.notFound

/-- A resolved pool: which allocator variant runs, and on what text. -/
inductive PoolChoice where
  | cidrPool (text : String)
  | rangePool (text : String)
deriving DecidableEq, Repr

/-- Modelled from the spec: the PoolResolver contract — consult
`cidr-<namespace>`, `cidr-global`, `range-<namespace>`, `range-global`
in that order, first present key wins, no merging, `none` when all
four are absent.  Stated separately from `discoverAddress` so the
code's resolution order can be compared against it. -/
def resolvePoolSpec (cm : ConfigMap) (ns : String) : Option PoolChoice :=
  match lookupAssoc cm.data ("cidr-" ++ ns) with
  | some c => some (PoolChoice.cidrPool c)
  | none =>
    match lookupAssoc cm.data "cidr-global" with
    | some c => some (PoolChoice.cidrPool c)
    | none =>
      match lookupAssoc cm.data ("range-" ++ ns) with
      | some r => some (PoolChoice.rangePool r)
      | none =>
        match lookupAssoc cm.data "range-global" with
        | some r => some (PoolChoice.rangePool r)
        | none => none

/-- The existing-address list handed to the allocator: the
`ipam-address` label of every listed service, in list order, missing
labels contributing the empty string (the Go loop appends
`svcs.Items[x].Labels["ipam-address"]` unconditionally). -/
def claimSet (svcs : List Service) : List String :=
  svcs.map (fun s => getLabel s "ipam-address")

/-- The mutations the retry closure applies to the freshly-read service
before the update call: initialise the label map if nil, set the
`implementation` and `ipam-address` labels, set
`Spec.LoadBalancerIP`. -/
def applyMutations (s : Service) (lbIP : String) : Service :=
  let base :=
    match s.labels with
    | none => []
    | some l => l
  { s with
    labels := some (setAssoc (setAssoc base "implementation" "kube-vip") "ipam-address" lbIP),
    specLoadBalancerIP := lbIP }

/-- One iteration of the retry closure: read the latest version of the
target service, apply the mutations, write it back.  Returns the
closure's error and the collaborator calls made. -/
def persistAttempt (env : Env) (n : Nat) (ns nm lbIP : String) :
    Except KErr Unit × List Effect :=
  match env.getSvc n ns nm with
  | Except.error g => (Except.error g, [Effect.getService ns nm])
  | Except.ok recent =>
    let updated := applyMutations recent lbIP
    match env.updateSvc n updated with
    | Except.error u =>
        (Except.error u, [Effect.getService ns nm, Effect.updateService updated])
    | Except.ok _ =>
        (Except.ok (), [Effect.getService ns nm, Effect.updateService updated])

/-- Modelled from the spec: the bounded optimistic-concurrency retry
policy (`retry.RetryOnConflict` with `retry.DefaultRetry`, an external
library): run the closure, stop on success, stop with the error on a
non-conflict error, retry on a conflict error up to the fixed attempt
budget (`DefaultRetry.Steps = 5`), returning the last conflict error
when the budget is exhausted. -/
def retryLoop (env : Env) (ns nm lbIP : String) : Nat → Nat → Option KErr × List Effect
  | 0, _ => (some KErr.conflict, [])
  | fuel + 1, n =>
    let pa := persistAttempt env n ns nm lbIP
    match pa.1 with
    | Except.ok _ => (none, pa.2)
    | Except.error e =>
      if e = KErr.conflict then
        let rest := retryLoop env ns nm lbIP fuel (n + 1)
        (rest.1, pa.2 ++ rest.2)
      else
        (some e, pa.2)

/-- `retry.DefaultRetry.Steps`. -/
def defaultRetrySteps : Nat := 5

/-- The tail of `syncLoadBalancer` once the service list and the
configuration document are in hand: build the existing-address list,
run `discoverAddress`, and on success run the update retry loop.
`tr` is the trace accumulated so far.  The Go variable `err` is nil on
entry to the retry phase (the `discoverAddress` error check returned
otherwise); the failure wrapper formats this variable, not the loop's
own error, which is mirrored by `errVar`. -/
def syncWithCM (env : Env) (service : Service) (svcs : List Service) (cm : ConfigMap)
    (tr : List Effect) : SyncOut :=
  let existing := claimSet svcs
  let tr2 := tr ++ [Effect.discoverCall service.ns existing]
  match discoverAddress env.ipam cm service.ns env.cloudConfigMap existing with
  | Except.error e =>
      { status := none, error := some (GoErr.core (GoErrCore.discover e)), trace := tr2 }
  | Except.ok loadBalancerIP =>
    let errVar : Option GoErrCore := none
    let res := retryLoop env service.ns service.name loadBalancerIP defaultRetrySteps 0
    match res.1 with
    | some _ =>
        { status := none, error := some (GoErr.updateWrap service.name errVar),
          trace := tr2 ++ res.2 }
    | none =>
        { status := some service.statusLoadBalancer, error := none, trace := tr2 ++ res.2 }

/-- `syncLoadBalancer`: return the existing status unchanged when the
service already has a load-balancer IP; otherwise list the namespace's
kube-vip services, fetch (or create) the configuration document,
allocate an address and persist it with conflict retry. -/
def syncLoadBalancer (env : Env) (service : Service) : SyncOut :=
  if service.specLoadBalancerIP ≠ "" then
    { status := some service.statusLoadBalancer, error := none, trace := [] }
  else
    match env.list service.ns implementationSelector with
    | Except.error e =>
        { status := some service.statusLoadBalancer, error := some (GoErr.core (GoErrCore.kube e)),
          trace := [Effect.listServices service.ns implementationSelector] }
    | Except.ok svcs =>
      let tr0 := [Effect.listServices service.ns implementationSelector,
                  Effect.getConfigMap KubeVipClientConfig "kube-system"]
      match env.getCM KubeVipClientConfig "kube-system" with
      | Except.ok cm => syncWithCM env service svcs cm tr0
      | Except.error _ =>
        let tr1 := tr0 ++ [Effect.createConfigMap KubeVipClientConfig "kube-system"]
        match env.createCM KubeVipClientConfig "kube-system" with
        | Except.error e2 =>
            { status := none, error := some (GoErr.core (GoErrCore.kube e2)), trace := tr1 }
        | Except.ok cm => syncWithCM env service svcs cm tr1

/-- Result of `GetLoadBalancer`: status pointer, the `exists` flag, and
the error. -/
structure GetLBOut where
  status : Option LBStatus
  found : Bool
  error : Option GoErr
deriving DecidableEq, Repr

/-- `GetLoadBalancer`: reports the service as existing exactly when its
`implementation` label equals the literal `"kube=vip"` (as written in
the source), with no error on either branch. -/
def getLoadBalancer (service : Service) : GetLBOut :=
  if getLabel service "implementation" = "kube=vip" then
    { status := some service.statusLoadBalancer, found := true, error := none }
  else
    { status := none, found := false, error := none }

/-- `deleteLoadBalancer`: logs and returns nil; it makes no collaborator
call (the log line is observability only, outside the effect model). -/
def deleteLoadBalancer (_service : Service) : Option GoErr × List Effect :=
  (none, [])

/-- `EnsureLoadBalancerDeleted` delegates to `deleteLoadBalancer`. -/
def ensureLoadBalancerDeleted (service : Service) : Option GoErr × List Effect :=
  deleteLoadBalancer service

/-- `true` exactly on the collaborator calls of the persistence phase
(the read and the write of the retry closure). -/
def isPersistEffect : Effect → Bool
  | Effect.getService _ _ => true
  | Effect.updateService _ => true
  | _ => false

/-- Number of `getService` reads in a trace: one per retry attempt. -/
def countGetService : List Effect → Nat
  | [] => 0
  | Effect.getService _ _ :: rest => countGetService rest + 1
  | _ :: rest => countGetService rest

/-- The closure outcome of retry attempt `n`. -/
def attemptOutcome (env : Env) (ns nm lbIP : String) (n : Nat) : Except KErr Unit :=
  (persistAttempt env n ns nm lbIP).1

/-! Concrete fixtures used by the witness theorems. -/

/-- An allocator pair with fixed successful answers. -/
def wIpam : Ipam :=
  { findCidr := fun _ _ _ => Except.ok "192.168.1.1",
    findRange := fun _ _ _ => Except.ok "10.0.0.1" }

/-- An empty load-balancer status. -/
def wStatus : LBStatus := { ingress := [] }

/-- An unbound service with a nil label map. -/
def wSvcNoLabel : Service :=
  { ns := "default", name := "svc", uid := "u1", labels := none,
    specLoadBalancerIP := "", statusLoadBalancer := wStatus }

/-- A service already carrying a kube-vip claim. -/
def wSvcLabeled : Service :=
  { ns := "default", name := "other", uid := "u2",
    labels := some [("implementation", "kube-vip"), ("ipam-address", "192.168.1.1")],
    specLoadBalancerIP := "192.168.1.1", statusLoadBalancer := wStatus }

/-- A service whose address is already populated (bound). -/
def wSvcBound : Service :=
  { ns := "default", name := "bound", uid := "u3", labels := none,
    specLoadBalancerIP := "10.1.2.3", statusLoadBalancer := wStatus }

/-- A configuration document with a namespace CIDR pool for `default`. -/
def wCM : ConfigMap := { data := [("cidr-default", "192.168.1.0/30")] }

/-- An empty configuration document: no pool key at all. -/
def wCMempty : ConfigMap := { data := [] }

/-- An environment in which every collaborator call succeeds. -/
def wEnvOk : Env :=
  { ipam := wIpam, cloudConfigMap := "kubevip",
    list := fun _ _ => Except.ok [wSvcLabeled],
    getCM := fun _ _ => Except.ok wCM,
    createCM := fun _ _ => Except.error (KErr.other "create refused"),
    getSvc := fun _ _ _ => Except.ok wSvcNoLabel,
    updateSvc := fun _ _ => Except.ok () }

/-- An environment whose configuration document has no pool keys, so
allocation fails with `NotFound`. -/
def wEnvNoPool : Env :=
  { wEnvOk with getCM := fun _ _ => Except.ok wCMempty }

/-- An environment whose service writes always fail with a
non-conflict store error. -/
def wEnvUpdateFail : Env :=
  { wEnvOk with updateSvc := fun _ _ => Except.error (KErr.other "db down") }

/-- An environment whose first service write hits a version conflict
and whose second write succeeds. -/
def wEnvConflictOnce : Env :=
  { wEnvOk with
    updateSvc := fun n _ => if n = 0 then Except.error KErr.conflict else Except.ok () }

/-- An environment where the configuration read fails and the document
is created by the fallback instead. -/
def wEnvCreate : Env :=
  { wEnvOk with
    getCM := fun _ _ => Except.error KErr.notFound,
    createCM := fun _ _ => Except.ok wCM }

/-! Helper lemmas. -/

theorem lookupAssoc_setAssoc (l : List (String × String)) (k v k' : String) :
    lookupAssoc (setAssoc l k v) k' = if k' = k then some v else lookupAssoc l k' := by
  induction l with
  | nil =>
    by_cases h : k' = k <;> simp_all [setAssoc, lookupAssoc]
    exact fun hh => h hh.symm
  | cons hd tl ih =>
    obtain ⟨a, b⟩ := hd
    by_cases hak : a = k <;> by_cases h : k' = k <;> by_cases hak' : a = k' <;>
      simp_all [setAssoc, lookupAssoc]

/-- Claim C1: a ServiceRequest whose `Spec.LoadBalancerIP` is already
non-empty short-circuits `syncLoadBalancer`: the existing status is
returned unchanged with no error, and no collaborator call at all (no
list, no configuration read, no allocation, no write) is made. -/
theorem sync_bound_short_circuits (env : Env) (service : Service)
    (h : service.specLoadBalancerIP ≠ "") :
    syncLoadBalancer env service =
      { status := some service.statusLoadBalancer, error := none, trace := [] } := by
  unfold syncLoadBalancer
  rw [if_pos h]

/-- Witness for C1 at a concretely bound service. -/
theorem sync_bound_short_circuits_witness :
    wSvcBound.specLoadBalancerIP ≠ "" ∧
    syncLoadBalancer wEnvOk wSvcBound =
      { status := some wStatus, error := none, trace := [] } :=
  ⟨by decide, sync_bound_short_circuits wEnvOk wSvcBound (by decide)⟩

/-- Claim C7: the deletion path (`EnsureLoadBalancerDeleted` via
`deleteLoadBalancer`) performs no collaborator call, mutates no state
and always returns nil. -/
theorem deleteLoadBalancer_noop (service : Service) :
    ensureLoadBalancerDeleted service = (none, []) ∧
    deleteLoadBalancer service = (none, []) :=
  ⟨rfl, rfl⟩

/-- Claim C8: `GetLoadBalancer` reports `exists = true` exactly when
the `implementation` label equals the literal `"kube=vip"`; the
coordinator writes the label value `"kube-vip"` and lists with the
selector `implementation=kube-vip`, so a service bound by
`syncLoadBalancer`'s own mutation is reported as not existing (nil
status, `exists = false`). -/
theorem getLoadBalancer_label_mismatch (service s : Service) (ip : String) :
    ((getLoadBalancer service).found = true ↔
        getLabel service "implementation" = "kube=vip") ∧
    getLabel (applyMutations s ip) "implementation" = "kube-vip" ∧
    implementationSelector = "implementation=kube-vip" ∧
    getLoadBalancer (applyMutations s ip) =
      { status := none, found := false, error := none } := by
  have hlab : getLabel (applyMutations s ip) "implementation" = "kube-vip" := by
    unfold getLabel lookupLabel applyMutations
    simp [lookupAssoc_setAssoc]
  refine ⟨?_, hlab, rfl, ?_⟩
  · unfold getLoadBalancer
    by_cases h : getLabel service "implementation" = "kube=vip" <;> simp [h]
  · unfold getLoadBalancer
    rw [hlab]
    simp

/-- Claim C9: the existing-address list is positional: a listed service
with no `ipam-address` label contributes the empty string at its list
position, the collection keeps one entry per listed service (no
deduplication) and preserves order. -/
theorem claimSet_missing_label (svcs pre post : List Service) (s : Service)
    (h : lookupLabel s "ipam-address" = none) :
    (claimSet svcs).length = svcs.length ∧
    claimSet (pre ++ s :: post) = claimSet pre ++ [""] ++ claimSet post := by
  constructor
  · simp [claimSet]
  · simp [claimSet, getLabel, h]

/-- Witness for C9: a label-less service between two copies of the same
claimed service yields a collection with a duplicate and an empty
entry. -/
theorem claimSet_missing_label_witness :
    lookupLabel wSvcNoLabel "ipam-address" = none ∧
    claimSet ([wSvcLabeled] ++ wSvcNoLabel :: [wSvcLabeled]) =
      claimSet [wSvcLabeled] ++ [""] ++ claimSet [wSvcLabeled] :=
  ⟨rfl, (claimSet_missing_label [wSvcLabeled] [wSvcLabeled] [wSvcLabeled] wSvcNoLabel rfl).2⟩

theorem ofIpam_ne_notFound (r : Except String String) :
    ofIpam r ≠ Except.error DiscoverErr.notFound := by
  cases r <;> simp [ofIpam]

/-- Claim C2: `discoverAddress` resolves the pool by consulting
`cidr-<namespace>`, `cidr-global`, `range-<namespace>`, `range-global`
in that order with the first present key winning and no merging (a
namespace key beats the global key of its kind, and any CIDR key beats
any range key): whenever the spec-side resolver picks a pool, the code
runs exactly the matching ipam allocator on exactly that pool text,
and the code fails with NotFound precisely when all four keys are
absent. -/
theorem discoverAddress_resolution (ip : Ipam) (cm : ConfigMap) (ns cmn : String)
    (ips : List String) :
    (∀ c, resolvePoolSpec cm ns = some (PoolChoice.cidrPool c) →
        discoverAddress ip cm ns cmn ips = ofIpam (ip.findCidr ns c ips)) ∧
    (∀ r, resolvePoolSpec cm ns = some (PoolChoice.rangePool r) →
        discoverAddress ip cm ns cmn ips = ofIpam (ip.findRange ns r ips)) ∧
    (discoverAddress ip cm ns cmn ips = Except.error DiscoverErr.notFound ↔
        resolvePoolSpec cm ns = none) ∧
    (resolvePoolSpec cm ns = none ↔
        (lookupAssoc cm.data ("cidr-" ++ ns) = none ∧
         lookupAssoc cm.data "cidr-global" = none ∧
         lookupAssoc cm.data ("range-" ++ ns) = none ∧
         lookupAssoc cm.data "range-global" = none)) := by
  unfold discoverAddress resolvePoolSpec
  cases h1 : lookupAssoc cm.data ("cidr-" ++ ns) <;>
    cases h2 : lookupAssoc cm.data "cidr-global" <;>
      cases h3 : lookupAssoc cm.data ("range-" ++ ns) <;>
        cases h4 : lookupAssoc cm.data "range-global" <;>
          simp_all [ofIpam_ne_notFound]

/-- Witness for C2: with only `cidr-default` configured, allocation for
namespace `default` runs the CIDR allocator on that pool. -/
theorem discoverAddress_resolution_witness :
    discoverAddress wIpam wCM "default" "kubevip" [] =
      ofIpam (wIpam.findCidr "default" "192.168.1.0/30" []) :=
  (discoverAddress_resolution wIpam wCM "default" "kubevip" []).1
    "192.168.1.0/30" (by decide)

/-- Claim C6: the only mutations the retry closure applies to the
freshly-read service are the `implementation=kube-vip` label, the
`ipam-address` label and `Spec.LoadBalancerIP` (initialising a nil
label map); namespace, name, uid, status and every other label are
left unchanged. -/
theorem applyMutations_frame (s : Service) (ip : String) :
    (applyMutations s ip).specLoadBalancerIP = ip ∧
    getLabel (applyMutations s ip) "implementation" = "kube-vip" ∧
    getLabel (applyMutations s ip) "ipam-address" = ip ∧
    (applyMutations s ip).labels.isSome = true ∧
    (applyMutations s ip).ns = s.ns ∧
    (applyMutations s ip).name = s.name ∧
    (applyMutations s ip).uid = s.uid ∧
    (applyMutations s ip).statusLoadBalancer = s.statusLoadBalancer ∧
    (∀ k, k ≠ "implementation" → k ≠ "ipam-address" →
        getLabel (applyMutations s ip) k = getLabel s k) := by
  refine ⟨rfl, ?_, ?_, ?_, rfl, rfl, rfl, rfl, ?_⟩
  · unfold getLabel lookupLabel applyMutations
    simp [lookupAssoc_setAssoc]
  · unfold getLabel lookupLabel applyMutations
    simp [lookupAssoc_setAssoc]
  · unfold applyMutations
    simp
  · intro k hk1 hk2
    have hk1' : "implementation" ≠ k := fun hh => hk1 hh.symm
    have hk2' : "ipam-address" ≠ k := fun hh => hk2 hh.symm
    unfold getLabel lookupLabel applyMutations
    cases hl : s.labels with
    | none => simp [hl, lookupAssoc_setAssoc, hk1, hk2, hk1', hk2', lookupAssoc]
    | some l => simp [hl, lookupAssoc_setAssoc, hk1, hk2, hk1', hk2']

/-- Witness for C6 at a service with a nil label map. -/
theorem applyMutations_frame_witness :
    getLabel (applyMutations wSvcNoLabel "10.9.8.7") "app" = getLabel wSvcNoLabel "app" ∧
    getLabel (applyMutations wSvcNoLabel "10.9.8.7") "ipam-address" = "10.9.8.7" :=
  ⟨(applyMutations_frame wSvcNoLabel "10.9.8.7").2.2.2.2.2.2.2.2 "app"
      (by decide) (by decide),
   (applyMutations_frame wSvcNoLabel "10.9.8.7").2.2.1⟩

theorem sync_reach_get (env : Env) (service : Service) (svcs : List Service) (cm : ConfigMap)
    (h0 : service.specLoadBalancerIP = "")
    (h1 : env.list service.ns implementationSelector = Except.ok svcs)
    (h2 : env.getCM KubeVipClientConfig "kube-system" = Except.ok cm) :
    syncLoadBalancer env service =
      syncWithCM env service svcs cm
        [Effect.listServices service.ns implementationSelector,
         Effect.getConfigMap KubeVipClientConfig "kube-system"] := by
  simp [syncLoadBalancer, h0, h1, h2]

theorem syncWithCM_trace_shape (env : Env) (service : Service) (svcs : List Service)
    (cm : ConfigMap) (tr : List Effect) :
    ∃ rest, (syncWithCM env service svcs cm tr).trace =
      tr ++ Effect.discoverCall service.ns (claimSet svcs) :: rest := by
  unfold syncWithCM
  cases hd : discoverAddress env.ipam cm service.ns env.cloudConfigMap (claimSet svcs) with
  | error e => exact ⟨[], by simp [hd]⟩
  | ok lbIP =>
    cases hr : (retryLoop env service.ns service.name lbIP defaultRetrySteps 0).1 with
    | some e =>
      exact ⟨(retryLoop env service.ns service.name lbIP defaultRetrySteps 0).2,
        by simp [hd, hr]⟩
    | none =>
      exact ⟨(retryLoop env service.ns service.name lbIP defaultRetrySteps 0).2,
        by simp [hd, hr]⟩

theorem syncWithCM_atomic (env : Env) (service : Service) (svcs : List Service)
    (cm : ConfigMap) (tr : List Effect) (e : DiscoverErr)
    (htr : ∀ eff ∈ tr, isPersistEffect eff = false)
    (h : (syncWithCM env service svcs cm tr).error = some (GoErr.core (GoErrCore.discover e))) :
    (syncWithCM env service svcs cm tr).status = none ∧
    ∀ eff ∈ (syncWithCM env service svcs cm tr).trace, isPersistEffect eff = false := by
  cases hd : discoverAddress env.ipam cm service.ns env.cloudConfigMap (claimSet svcs) with
  | ok lbIP =>
    exfalso
    cases hr : (retryLoop env service.ns service.name lbIP defaultRetrySteps 0).1 <;>
      simp [syncWithCM, hd, hr] at h
  | error e' =>
    refine ⟨by simp [syncWithCM, hd], ?_⟩
    intro eff hm
    simp only [syncWithCM, hd] at hm
    rw [List.mem_append] at hm
    rcases hm with hm | hm
    · exact htr eff hm
    · rw [List.mem_singleton] at hm
      subst hm
      rfl

/-- Claim C3: whenever `syncLoadBalancer` reports a pool-resolution or
allocation failure (any `discoverAddress` error: NotFound, an invalid
pool or exhaustion), it returns that error with a nil status and the
persistence phase is never entered: the trace contains no service read
and no service write. -/
theorem sync_failure_atomic (env : Env) (service : Service) (e : DiscoverErr)
    (h : (syncLoadBalancer env service).error = some (GoErr.core (GoErrCore.discover e))) :
    (syncLoadBalancer env service).status = none ∧
    ∀ eff ∈ (syncLoadBalancer env service).trace, isPersistEffect eff = false := by
  by_cases hip : service.specLoadBalancerIP = ""
  case neg => simp [syncLoadBalancer, hip] at h
  case pos =>
    cases hl : env.list service.ns implementationSelector with
    | error e' => simp [syncLoadBalancer, hip, hl] at h
    | ok svcs =>
      cases hcm : env.getCM KubeVipClientConfig "kube-system" with
      | ok cm =>
        rw [sync_reach_get env service svcs cm hip hl hcm] at h ⊢
        refine syncWithCM_atomic env service svcs cm _ e ?_ h
        intro eff hm
        simp only [List.mem_cons, List.not_mem_nil, or_false] at hm
        rcases hm with rfl | rfl <;> rfl
      | error ecm =>
        cases hcc : env.createCM KubeVipClientConfig "kube-system" with
        | error e2 => simp [syncLoadBalancer, hip, hl, hcm, hcc] at h
        | ok cm =>
          have hs : syncLoadBalancer env service =
              syncWithCM env service svcs cm
                [Effect.listServices service.ns implementationSelector,
                 Effect.getConfigMap KubeVipClientConfig "kube-system",
                 Effect.createConfigMap KubeVipClientConfig "kube-system"] := by
            simp [syncLoadBalancer, hip, hl, hcm, hcc]
          rw [hs] at h ⊢
          refine syncWithCM_atomic env service svcs cm _ e ?_ h
          intro eff hm
          simp only [List.mem_cons, List.not_mem_nil, or_false] at hm
          rcases hm with rfl | rfl | rfl <;> rfl

/-- Witness for C3: an environment whose configuration document has no
pool key makes allocation fail with NotFound, and the run performs no
service read or write. -/
theorem sync_failure_atomic_witness :
    (syncLoadBalancer wEnvNoPool wSvcNoLabel).error =
      some (GoErr.core (GoErrCore.discover DiscoverErr.notFound)) ∧
    (syncLoadBalancer wEnvNoPool wSvcNoLabel).status = none ∧
    ∀ eff ∈ (syncLoadBalancer wEnvNoPool wSvcNoLabel).trace, isPersistEffect eff = false :=
  ⟨by decide, sync_failure_atomic wEnvNoPool wSvcNoLabel DiscoverErr.notFound (by decide)⟩

theorem sync_reach_create (env : Env) (service : Service) (svcs : List Service)
    (ecm : KErr) (cm : ConfigMap)
    (h0 : service.specLoadBalancerIP = "")
    (h1 : env.list service.ns implementationSelector = Except.ok svcs)
    (h2 : env.getCM KubeVipClientConfig "kube-system" = Except.error ecm)
    (h3 : env.createCM KubeVipClientConfig "kube-system" = Except.ok cm) :
    syncLoadBalancer env service =
      syncWithCM env service svcs cm
        [Effect.listServices service.ns implementationSelector,
         Effect.getConfigMap KubeVipClientConfig "kube-system",
         Effect.createConfigMap KubeVipClientConfig "kube-system"] := by
  simp [syncLoadBalancer, h0, h1, h2, h3]

/-- Claim C4: on every reconciliation attempt for an unbound request
that obtains a configuration document — whether the read succeeds or
the document is created by the fallback — the exclusion set handed to
the allocator is recomputed in the same run: the trace starts with the
namespace-scoped list call under the `implementation=kube-vip`
selector, the configuration read (plus the creation call on the
fallback path), and then the allocation call whose exclusion list is
exactly the `ipam-address` label value of each listed service. -/
theorem sync_claimSet_fresh (env : Env) (service : Service) (svcs : List Service)
    (h0 : service.specLoadBalancerIP = "")
    (h1 : env.list service.ns implementationSelector = Except.ok svcs) :
    (∀ cm, env.getCM KubeVipClientConfig "kube-system" = Except.ok cm →
      ∃ rest, (syncLoadBalancer env service).trace =
        Effect.listServices service.ns implementationSelector ::
        Effect.getConfigMap KubeVipClientConfig "kube-system" ::
        Effect.discoverCall service.ns (svcs.map fun s => getLabel s "ipam-address") ::
        rest) ∧
    (∀ ecm cm, env.getCM KubeVipClientConfig "kube-system" = Except.error ecm →
      env.createCM KubeVipClientConfig "kube-system" = Except.ok cm →
      ∃ rest, (syncLoadBalancer env service).trace =
        Effect.listServices service.ns implementationSelector ::
        Effect.getConfigMap KubeVipClientConfig "kube-system" ::
        Effect.createConfigMap KubeVipClientConfig "kube-system" ::
        Effect.discoverCall service.ns (svcs.map fun s => getLabel s "ipam-address") ::
        rest) := by
  constructor
  · intro cm h2
    rw [sync_reach_get env service svcs cm h0 h1 h2]
    obtain ⟨rest, hrest⟩ := syncWithCM_trace_shape env service svcs cm
      [Effect.listServices service.ns implementationSelector,
       Effect.getConfigMap KubeVipClientConfig "kube-system"]
    exact ⟨rest, by simp [hrest, claimSet]⟩
  · intro ecm cm h2 h3
    rw [sync_reach_create env service svcs ecm cm h0 h1 h2 h3]
    obtain ⟨rest, hrest⟩ := syncWithCM_trace_shape env service svcs cm
      [Effect.listServices service.ns implementationSelector,
       Effect.getConfigMap KubeVipClientConfig "kube-system",
       Effect.createConfigMap KubeVipClientConfig "kube-system"]
    exact ⟨rest, by simp [hrest, claimSet]⟩

/-- Witness for C4 on both configuration paths: the successful read and
the creation fallback. -/
theorem sync_claimSet_fresh_witness :
    (∃ rest, (syncLoadBalancer wEnvOk wSvcNoLabel).trace =
      Effect.listServices "default" implementationSelector ::
      Effect.getConfigMap KubeVipClientConfig "kube-system" ::
      Effect.discoverCall "default" ([wSvcLabeled].map fun s => getLabel s "ipam-address") ::
      rest) ∧
    (∃ rest, (syncLoadBalancer wEnvCreate wSvcNoLabel).trace =
      Effect.listServices "default" implementationSelector ::
      Effect.getConfigMap KubeVipClientConfig "kube-system" ::
      Effect.createConfigMap KubeVipClientConfig "kube-system" ::
      Effect.discoverCall "default" ([wSvcLabeled].map fun s => getLabel s "ipam-address") ::
      rest) :=
  ⟨(sync_claimSet_fresh wEnvOk wSvcNoLabel [wSvcLabeled] rfl rfl).1 wCM rfl,
   (sync_claimSet_fresh wEnvCreate wSvcNoLabel [wSvcLabeled] rfl rfl).2
     KErr.notFound wCM rfl rfl⟩

theorem countGetService_append (a b : List Effect) :
    countGetService (a ++ b) = countGetService a + countGetService b := by
  induction a with
  | nil => simp [countGetService]
  | cons eff rest ih => cases eff <;> simp [countGetService, ih] <;> omega

theorem countGetService_persistAttempt (env : Env) (n : Nat) (ns nm ip : String) :
    countGetService (persistAttempt env n ns nm ip).2 = 1 := by
  unfold persistAttempt
  cases hg : env.getSvc n ns nm with
  | error g => simp [countGetService]
  | ok r =>
    cases hu : env.updateSvc n (applyMutations r ip) <;> simp [hg, hu, countGetService]

theorem persistAttempt_update_mem (env : Env) (n : Nat) (ns nm ip : String) (s : Service)
    (hm : Effect.updateService s ∈ (persistAttempt env n ns nm ip).2) :
    ∃ r, env.getSvc n ns nm = Except.ok r ∧ s = applyMutations r ip := by
  unfold persistAttempt at hm
  cases hg : env.getSvc n ns nm with
  | error g => simp [hg] at hm
  | ok r =>
    cases hu : env.updateSvc n (applyMutations r ip) <;> simp [hg, hu] at hm <;>
      exact ⟨r, rfl, hm⟩

theorem retryLoop_count (env : Env) (ns nm ip : String) :
    ∀ fuel start, countGetService (retryLoop env ns nm ip fuel start).2 ≤ fuel := by
  intro fuel
  induction fuel with
  | zero => intro start; simp [retryLoop, countGetService]
  | succ f ih =>
    intro start
    unfold retryLoop
    cases ho : (persistAttempt env start ns nm ip).1 with
    | ok u =>
      simp [ho, countGetService_persistAttempt]
    | error e =>
      by_cases hc : e = KErr.conflict
      · have hr := ih (start + 1)
        simp [ho, hc, countGetService_append, countGetService_persistAttempt]
        omega
      · simp [ho, hc, countGetService_persistAttempt]

theorem retryLoop_update_mem (env : Env) (ns nm ip : String) :
    ∀ fuel start s, Effect.updateService s ∈ (retryLoop env ns nm ip fuel start).2 →
      ∃ n r, env.getSvc n ns nm = Except.ok r ∧ s = applyMutations r ip := by
  intro fuel
  induction fuel with
  | zero => intro start s hm; simp [retryLoop] at hm
  | succ f ih =>
    intro start s hm
    unfold retryLoop at hm
    cases ho : (persistAttempt env start ns nm ip).1 with
    | ok u =>
      simp only [ho] at hm
      obtain ⟨r, hg, hs⟩ := persistAttempt_update_mem env start ns nm ip s hm
      exact ⟨start, r, hg, hs⟩
    | error e =>
      by_cases hc : e = KErr.conflict
      · simp [ho, hc] at hm
        rcases hm with hm | hm
        · obtain ⟨r, hg, hs⟩ := persistAttempt_update_mem env start ns nm ip s hm
          exact ⟨start, r, hg, hs⟩
        · exact ih (start + 1) s hm
      · simp only [ho, if_neg hc] at hm
        obtain ⟨r, hg, hs⟩ := persistAttempt_update_mem env start ns nm ip s hm
        exact ⟨start, r, hg, hs⟩

theorem retryLoop_none_iff (env : Env) (ns nm ip : String) :
    ∀ fuel start, (retryLoop env ns nm ip fuel start).1 = none ↔
      ∃ k, k < fuel ∧ attemptOutcome env ns nm ip (start + k) = Except.ok () ∧
        ∀ j, j < k → attemptOutcome env ns nm ip (start + j) = Except.error KErr.conflict := by
  intro fuel
  induction fuel with
  | zero => intro start; simp [retryLoop]
  | succ f ih =>
    intro start
    constructor
    · intro h
      unfold retryLoop at h
      cases ho : (persistAttempt env start ns nm ip).1 with
      | ok u =>
        refine ⟨0, by omega, ?_, fun j hj => by omega⟩
        rw [Nat.add_zero]
        unfold attemptOutcome
        rw [ho]
      | error e =>
        by_cases hc : e = KErr.conflict
        · simp only [ho, hc, if_pos] at h
          obtain ⟨k, hk, hok, hconf⟩ := (ih (start + 1)).mp h
          refine ⟨k + 1, by omega, ?_, ?_⟩
          · have heq : start + 1 + k = start + (k + 1) := by omega
            rw [heq] at hok
            exact hok
          · intro j hj
            cases j with
            | zero =>
              rw [Nat.add_zero]
              unfold attemptOutcome
              rw [ho, hc]
            | succ j' =>
              have := hconf j' (by omega)
              have heq : start + 1 + j' = start + (j' + 1) := by omega
              rw [heq] at this
              exact this
        · simp [ho, hc] at h
    · rintro ⟨k, hk, hok, hconf⟩
      unfold retryLoop
      cases ho : (persistAttempt env start ns nm ip).1 with
      | ok u => simp [ho]
      | error e =>
        cases k with
        | zero =>
          exfalso
          unfold attemptOutcome at hok
          rw [Nat.add_zero, ho] at hok
          cases hok
        | succ k' =>
          have h0 := hconf 0 (by omega)
          rw [Nat.add_zero] at h0
          unfold attemptOutcome at h0
          rw [ho] at h0
          have hce : e = KErr.conflict := by
            injection h0
          subst hce
          simp [ho]
          refine (ih (start + 1)).mpr ⟨k', by omega, ?_, ?_⟩
          · have heq : start + 1 + k' = start + (k' + 1) := by omega
            rw [heq]
            exact hok
          · intro j hj
            have := hconf (j + 1) (by omega)
            have heq : start + 1 + j = start + (j + 1) := by omega
            rw [heq]
            exact this

theorem retryLoop_some_char (env : Env) (ns nm ip : String) :
    ∀ fuel start e, (retryLoop env ns nm ip fuel start).1 = some e →
      (e = KErr.conflict ∧ ∀ j, j < fuel →
          attemptOutcome env ns nm ip (start + j) = Except.error KErr.conflict) ∨
      (e ≠ KErr.conflict ∧ ∃ k, k < fuel ∧
          attemptOutcome env ns nm ip (start + k) = Except.error e ∧
          ∀ j, j < k → attemptOutcome env ns nm ip (start + j) = Except.error KErr.conflict) := by
  intro fuel
  induction fuel with
  | zero =>
    intro start e h
    simp [retryLoop] at h
    exact Or.inl ⟨h.symm, fun j hj => by omega⟩
  | succ f ih =>
    intro start e h
    unfold retryLoop at h
    cases ho : (persistAttempt env start ns nm ip).1 with
    | ok u => simp [ho] at h
    | error e' =>
      by_cases hc : e' = KErr.conflict
      · simp [ho, hc] at h
        rcases ih (start + 1) e h with ⟨hec, hall⟩ | ⟨hne, k, hk, hke, hconf⟩
        · refine Or.inl ⟨hec, fun j hj => ?_⟩
          cases j with
          | zero =>
            rw [Nat.add_zero]
            unfold attemptOutcome
            rw [ho, hc]
          | succ j' =>
            have := hall j' (by omega)
            have heq : start + 1 + j' = start + (j' + 1) := by omega
            rw [heq] at this
            exact this
        · refine Or.inr ⟨hne, k + 1, by omega, ?_, ?_⟩
          · have heq : start + 1 + k = start + (k + 1) := by omega
            rw [heq] at hke
            exact hke
          · intro j hj
            cases j with
            | zero =>
              rw [Nat.add_zero]
              unfold attemptOutcome
              rw [ho, hc]
            | succ j' =>
              have := hconf j' (by omega)
              have heq : start + 1 + j' = start + (j' + 1) := by omega
              rw [heq] at this
              exact this
      · simp [ho, hc] at h
        subst h
        refine Or.inr ⟨hc, 0, by omega, ?_, fun j hj => by omega⟩
        rw [Nat.add_zero]
        unfold attemptOutcome
        rw [ho]

theorem sync_retry_fail (env : Env) (service : Service) (svcs : List Service)
    (cm : ConfigMap) (ipaddr : String) (e : KErr)
    (h0 : service.specLoadBalancerIP = "")
    (h1 : env.list service.ns implementationSelector = Except.ok svcs)
    (h2 : env.getCM KubeVipClientConfig "kube-system" = Except.ok cm)
    (h3 : discoverAddress env.ipam cm service.ns env.cloudConfigMap (claimSet svcs) =
      Except.ok ipaddr)
    (h4 : (retryLoop env service.ns service.name ipaddr defaultRetrySteps 0).1 = some e) :
    syncLoadBalancer env service =
      { status := none, error := some (GoErr.updateWrap service.name none),
        trace :=
          Effect.listServices service.ns implementationSelector ::
          Effect.getConfigMap KubeVipClientConfig "kube-system" ::
          Effect.discoverCall service.ns (claimSet svcs) ::
          (retryLoop env service.ns service.name ipaddr defaultRetrySteps 0).2 } := by
  rw [sync_reach_get env service svcs cm h0 h1 h2]
  simp [syncWithCM, h3, h4]

theorem sync_retry_ok (env : Env) (service : Service) (svcs : List Service)
    (cm : ConfigMap) (ipaddr : String)
    (h0 : service.specLoadBalancerIP = "")
    (h1 : env.list service.ns implementationSelector = Except.ok svcs)
    (h2 : env.getCM KubeVipClientConfig "kube-system" = Except.ok cm)
    (h3 : discoverAddress env.ipam cm service.ns env.cloudConfigMap (claimSet svcs) =
      Except.ok ipaddr)
    (h4 : (retryLoop env service.ns service.name ipaddr defaultRetrySteps 0).1 = none) :
    syncLoadBalancer env service =
      { status := some service.statusLoadBalancer, error := none,
        trace :=
          Effect.listServices service.ns implementationSelector ::
          Effect.getConfigMap KubeVipClientConfig "kube-system" ::
          Effect.discoverCall service.ns (claimSet svcs) ::
          (retryLoop env service.ns service.name ipaddr defaultRetrySteps 0).2 } := by
  rw [sync_reach_get env service svcs cm h0 h1 h2]
  simp [syncWithCM, h3, h4]

theorem sync_trace_eq (env : Env) (service : Service) (svcs : List Service)
    (cm : ConfigMap) (ipaddr : String)
    (h0 : service.specLoadBalancerIP = "")
    (h1 : env.list service.ns implementationSelector = Except.ok svcs)
    (h2 : env.getCM KubeVipClientConfig "kube-system" = Except.ok cm)
    (h3 : discoverAddress env.ipam cm service.ns env.cloudConfigMap (claimSet svcs) =
      Except.ok ipaddr) :
    (syncLoadBalancer env service).trace =
      Effect.listServices service.ns implementationSelector ::
      Effect.getConfigMap KubeVipClientConfig "kube-system" ::
      Effect.discoverCall service.ns (claimSet svcs) ::
      (retryLoop env service.ns service.name ipaddr defaultRetrySteps 0).2 := by
  cases hr : (retryLoop env service.ns service.name ipaddr defaultRetrySteps 0).1 with
  | none => rw [sync_retry_ok env service svcs cm ipaddr h0 h1 h2 h3 hr]
  | some e => rw [sync_retry_fail env service svcs cm ipaddr e h0 h1 h2 h3 hr]

/-- Claim C5: after a successful allocation the coordinator enters the
optimistic write loop: every write it issues is the freshly re-read
service with exactly the coordinator's mutations applied; the loop
reads at most the fixed budget of `retry.DefaultRetry` attempts; it
terminates successfully exactly when some attempt within the budget
succeeds after a prefix of version conflicts; and when it fails — a
non-conflict error after a conflict prefix, or a full budget of
conflicts — `syncLoadBalancer` returns a nil status and a non-nil
error. -/
theorem sync_persistence_loop (env : Env) (service : Service) (svcs : List Service)
    (cm : ConfigMap) (ipaddr : String)
    (h0 : service.specLoadBalancerIP = "")
    (h1 : env.list service.ns implementationSelector = Except.ok svcs)
    (h2 : env.getCM KubeVipClientConfig "kube-system" = Except.ok cm)
    (h3 : discoverAddress env.ipam cm service.ns env.cloudConfigMap (claimSet svcs) =
      Except.ok ipaddr) :
    (∀ s, Effect.updateService s ∈ (syncLoadBalancer env service).trace →
        ∃ n r, env.getSvc n service.ns service.name = Except.ok r ∧
          s = applyMutations r ipaddr) ∧
    countGetService (syncLoadBalancer env service).trace ≤ defaultRetrySteps ∧
    ((retryLoop env service.ns service.name ipaddr defaultRetrySteps 0).1 = none ↔
      ∃ k, k < defaultRetrySteps ∧
        attemptOutcome env service.ns service.name ipaddr k = Except.ok () ∧
        ∀ j, j < k → attemptOutcome env service.ns service.name ipaddr j =
          Except.error KErr.conflict) ∧
    (∀ e, (retryLoop env service.ns service.name ipaddr defaultRetrySteps 0).1 = some e →
      ((e = KErr.conflict ∧ ∀ j, j < defaultRetrySteps →
          attemptOutcome env service.ns service.name ipaddr j = Except.error KErr.conflict) ∨
        (e ≠ KErr.conflict ∧ ∃ k, k < defaultRetrySteps ∧
          attemptOutcome env service.ns service.name ipaddr k = Except.error e ∧
          ∀ j, j < k → attemptOutcome env service.ns service.name ipaddr j =
            Except.error KErr.conflict)) ∧
      (syncLoadBalancer env service).status = none ∧
      (syncLoadBalancer env service).error ≠ none) := by
  refine ⟨?_, ?_, ?_, ?_⟩
  · intro s hm
    rw [sync_trace_eq env service svcs cm ipaddr h0 h1 h2 h3] at hm
    simp at hm
    exact retryLoop_update_mem env service.ns service.name ipaddr defaultRetrySteps 0 s hm
  · rw [sync_trace_eq env service svcs cm ipaddr h0 h1 h2 h3]
    have hb := retryLoop_count env service.ns service.name ipaddr defaultRetrySteps 0
    simp [countGetService]
    exact hb
  · simpa using retryLoop_none_iff env service.ns service.name ipaddr defaultRetrySteps 0
  · intro e he
    refine ⟨?_, ?_, ?_⟩
    · simpa using retryLoop_some_char env service.ns service.name ipaddr
        defaultRetrySteps 0 e he
    · rw [sync_retry_fail env service svcs cm ipaddr e h0 h1 h2 h3 he]
    · rw [sync_retry_fail env service svcs cm ipaddr e h0 h1 h2 h3 he]
      simp

/-- Witness for C5: a first-write conflict followed by a successful
retry stays within the fixed read budget. -/
theorem sync_persistence_loop_witness :
    countGetService (syncLoadBalancer wEnvConflictOnce wSvcNoLabel).trace ≤
      defaultRetrySteps :=
  (sync_persistence_loop wEnvConflictOnce wSvcNoLabel [wSvcLabeled] wCM "192.168.1.1"
    rfl rfl rfl rfl).2.1

/-- Claim C10: when the update retry loop ultimately fails, the error
`syncLoadBalancer` returns is the wrapper formatted from the earlier
allocation-phase `err` variable — necessarily nil at that point — so
the caller gets a non-nil wrapper that never carries the underlying
write or conflict error. -/
theorem sync_updateWrap_nil (env : Env) (service : Service) (svcs : List Service)
    (cm : ConfigMap) (ipaddr : String) (e : KErr)
    (h0 : service.specLoadBalancerIP = "")
    (h1 : env.list service.ns implementationSelector = Except.ok svcs)
    (h2 : env.getCM KubeVipClientConfig "kube-system" = Except.ok cm)
    (h3 : discoverAddress env.ipam cm service.ns env.cloudConfigMap (claimSet svcs) =
      Except.ok ipaddr)
    (h4 : (retryLoop env service.ns service.name ipaddr defaultRetrySteps 0).1 = some e) :
    (syncLoadBalancer env service).error = some (GoErr.updateWrap service.name none) := by
  rw [sync_retry_fail env service svcs cm ipaddr e h0 h1 h2 h3 h4]

/-- Witness for C10: a persistent non-conflict write error makes the
loop fail with that error, yet the returned wrapper carries nil. -/
theorem sync_updateWrap_nil_witness :
    (retryLoop wEnvUpdateFail "default" "svc" "192.168.1.1" defaultRetrySteps 0).1 =
      some (KErr.other "db down") ∧
    (syncLoadBalancer wEnvUpdateFail wSvcNoLabel).error =
      some (GoErr.updateWrap "svc" none) :=
  ⟨rfl, sync_updateWrap_nil wEnvUpdateFail wSvcNoLabel [wSvcLabeled] wCM "192.168.1.1"
    (KErr.other "db down") rfl rfl rfl rfl rfl⟩

end Provider
